import Mathlib

/-!
# Verification of the Eco-Forecast-AI forecast & quota core

Shallow embedding of the Forecast Generation & Quota Enforcement Pipeline:

* the seeded PRNG (`djb2` string hash and the `mulberry32` generator) from
  `src/api/forecast.js` lines 178-179;
* the deterministic demo forecast path (`src/api/forecast.js` lines 53-77)
  including the driver synthesizer `synthDrivers` (lines 153-176);
* the quota increment transaction from `src/api/usage/get.js`
  (the `usage/incr` handler, lines 73-91 of the combined file);
* the response-tagging logic of the two forecast handlers
  (`src/api/forecast.js` lines 28-77 and `src/unnamed/part_006` lines 91-202).

JavaScript numbers are modelled exactly: bitwise operators work on the
32-bit pattern of `ToInt32`/`ToUint32` of their operands, so every 32-bit
intermediate is a `Nat` reduced with an explicit `% 2^32`; the remaining
real arithmetic of the forecast path is modelled over `ℚ` (all constants
in the source are decimal literals, exact in `ℚ`).
-/

set_option maxRecDepth 8000

namespace EcoForecast

/-- `2^32`, the modulus of JavaScript's 32-bit integer coercions. -/
def M32 : Nat := 4294967296

/-- JS `ToUint32` (`x >>> 0`): the argument reduced into `[0, 2^32)`. -/
def toUint32 (x : Int) : Nat := (x % (M32 : Int)).toNat

/-- JS `ToInt32`: the argument reduced into `[-2^31, 2^31)`. -/
def toInt32 (x : Int) : Int :=
  if toUint32 x < 2 ^ 31 then (toUint32 x : Int) else (toUint32 x : Int) - (M32 : Int)

/-- The UTF-16 code units of a string, as JS `charCodeAt` sees them
(identical to the Unicode code points for the BMP strings the code uses). -/
def strCodes (s : String) : List Nat := s.toList.map Char.toNat

/-- One step of the `djb2` loop from `src/api/forecast.js:178`:
`h = ((h << 5) + h) + str.charCodeAt(i)`.  `h << 5` coerces `h` to int32
and wraps the shift to int32; the two additions are exact JS float
additions (exact for every realistic string length). -/
def djb2Step (h : Int) (c : Nat) : Int := toInt32 (32 * h) + h + c

/-- `djb2` from `src/api/forecast.js:178`: fold `djb2Step` from 5381 and
return `h >>> 0`. -/
def djb2 (codes : List Nat) : Nat := toUint32 (codes.foldl djb2Step 5381)

/-- `djb2` applied to a string. -/
def djb2Hash (s : String) : Nat := djb2 (strCodes s)

/-- The pure spec-level form of the hash: `hash = hash*33 + charCode`
per character, reduced mod `2^32`. -/
def djb2Pure (codes : List Nat) : Nat :=
  codes.foldl (fun h c => (33 * h + c) % M32) 5381

/-- The fixed `mulberry32` increment `0x6D2B79F5`
(`src/api/forecast.js:179`). -/
def MULB_INC : Nat := 0x6D2B79F5

/-- State update of `mulberry32`: `a += 0x6D2B79F5` (kept reduced mod
`2^32`; every later use of the state coerces it mod `2^32`). -/
def mulbStep (a : Nat) : Nat := (a + MULB_INC) % M32

/-- JS `Math.imul`: 32-bit wrapping multiplication (on bit patterns). -/
def imul32 (x y : Nat) : Nat := (x * y) % M32

/-- The `mulberry32` output finalizer applied to the (already
incremented) state `a < 2^32`, producing the `uint32` value
`(t ^ (t >>> 14)) >>> 0` of `src/api/forecast.js:179`. -/
def mulbOut (a : Nat) : Nat :=
  let t1 := imul32 (a ^^^ (a >>> 15)) (a ||| 1)
  let t2 := t1 ^^^ ((t1 + imul32 (t1 ^^^ (t1 >>> 7)) (t1 ||| 61)) % M32)
  t2 ^^^ (t2 >>> 14)

/-- A draw: the finalized `uint32` divided by `4294967295` (`2^32 - 1`,
as written in the source — not `2^32`). -/
def drawOf (a : Nat) : ℚ := (mulbOut a : ℚ) / 4294967295

/-- One call of the `mulberry32` closure: increment the state, then
produce the draw from the new state. -/
def nextDraw (a : Nat) : Nat × ℚ := (mulbStep a, drawOf (mulbStep a))

/-- The internal state after `k` calls of the closure started from
`seed`: `k` applications of `mulbStep`. -/
def stateAt (seed : Nat) : Nat → Nat
  | 0 => seed
  | k + 1 => mulbStep (stateAt seed k)

/-- The `k`-th draw (0-based) of the stream started from `seed`,
as a pure function of the seed. -/
def drawAt (seed k : Nat) : ℚ := drawOf (stateAt seed (k + 1))

/-- The first `n` draws of the stream, produced by threading the mutable
state exactly as the closure returned by `mulberry32` does. -/
def drawsList (a : Nat) : Nat → List ℚ
  | 0 => []
  | n + 1 =>
    let (a', q) := nextDraw a
    q :: drawsList a' n

/-! ## String helpers of the forecast path -/

/-- JS `String.prototype.toLowerCase` (ASCII case mapping, which is all
the keyword matching of the code needs). -/
def lowerStr (s : String) : String := String.mk (s.data.map Char.toLower)

/-- JS `String.prototype.includes` / a bare regex alternative: substring
containment, on char lists. -/
def containsSub (needle : List Char) : List Char → Bool
  | [] => needle.isPrefixOf []
  | c :: rest => needle.isPrefixOf (c :: rest) || containsSub needle rest

/-- JS regex `\w`: `[A-Za-z0-9_]`. -/
def isWordChar (c : Char) : Bool := c.isAlphanum || c == '_'

/-- Whether the previous character (none at the start of the string)
makes this position a `\b` boundary before a word character. -/
def boundaryOk : Option Char → Bool
  | none => true
  | some c => !isWordChar c

/-- Whether `w` occurs in the haystack at a position preceded by a `\b`
word boundary, scanning with the previous character carried along.
Models the `\bword` alternative of the driver rules. -/
def hasWordStartAux (w : List Char) : Option Char → List Char → Bool
  | prev, [] => boundaryOk prev && w.isPrefixOf []
  | prev, c :: rest =>
    (boundaryOk prev && w.isPrefixOf (c :: rest)) || hasWordStartAux w (some c) rest

/-- `\bw` match anywhere in `hay`. -/
def hasWordStart (w : String) (hay : List Char) : Bool :=
  hasWordStartAux w.toList none hay

/-! ## Driver synthesizer (`synthDrivers`, `src/api/forecast.js:153-176`) -/

/-- A driver entry `{text, tone}`.  The fields are `Option`s because the
pool lookup `pool[Math.floor(r() * pool.length)]` can in principle index
past the end (JS then yields `undefined`), which `none` models. -/
structure Driver where
  text : Option String
  tone : Option String
deriving DecidableEq, Repr

/-- Rule 1: `/\bwar|conflict|invasion|mobilization|sanction|blockade/`. -/
def rule1 (t : List Char) : Bool :=
  hasWordStart "war" t || containsSub "conflict".toList t ||
  containsSub "invasion".toList t || containsSub "mobilization".toList t ||
  containsSub "sanction".toList t || containsSub "blockade".toList t

/-- Rule 2: `/\btariff|quota|export ban|embargo/`. -/
def rule2 (t : List Char) : Bool :=
  hasWordStart "tariff" t || containsSub "quota".toList t ||
  containsSub "export ban".toList t || containsSub "embargo".toList t

/-- Rule 3: `/\bsubsidy|credit|rebate|stimulus|grant/`. -/
def rule3 (t : List Char) : Bool :=
  hasWordStart "subsidy" t || containsSub "credit".toList t ||
  containsSub "rebate".toList t || containsSub "stimulus".toList t ||
  containsSub "grant".toList t

/-- Rule 4: `/\bhurricane|flood|wildfire|heat wave|el niño|la niña/`. -/
def rule4 (t : List Char) : Bool :=
  hasWordStart "hurricane" t || containsSub "flood".toList t ||
  containsSub "wildfire".toList t || containsSub "heat wave".toList t ||
  containsSub "el niño".toList t || containsSub "la niña".toList t

/-- Rule 5: `/\bparty|majority|house|senate|white house|regime change|coup/`. -/
def rule5 (t : List Char) : Bool :=
  hasWordStart "party" t || containsSub "majority".toList t ||
  containsSub "house".toList t || containsSub "senate".toList t ||
  containsSub "white house".toList t || containsSub "regime change".toList t ||
  containsSub "coup".toList t

/-- Rule 6: `/\bfed|rate hike|rate cut|yields|quantitative/`. -/
def rule6 (t : List Char) : Bool :=
  hasWordStart "fed" t || containsSub "rate hike".toList t ||
  containsSub "rate cut".toList t || containsSub "yields".toList t ||
  containsSub "quantitative".toList t

/-- The keyword-rule phase of `synthDrivers`: each matching rule pushes
its fixed driver, in the fixed source order. -/
def ruleDrivers (t : List Char) : List Driver :=
  (if rule1 t then
    [⟨some "Geopolitical risk elevating supply chain fragility", some "bad"⟩] else []) ++
  (if rule2 t then
    [⟨some "Trade barriers raising input costs", some "bad"⟩] else []) ++
  (if rule3 t then
    [⟨some "Fiscal support boosting demand in targeted sectors", some "good"⟩] else []) ++
  (if rule4 t then
    [⟨some "Weather disruption affecting logistics and insurance premiums", some "warn"⟩] else []) ++
  (if rule5 t then
    [⟨some "Political control shift altering policy trajectory", some "warn"⟩] else []) ++
  (if rule6 t then
    [⟨some "Interest-rate path impacting capital costs and demand", some "warn"⟩] else [])

/-- The fixed 5-entry fallback pool of `synthDrivers`. -/
def pool : List String :=
  ["Energy futures volatility spilling into transport costs",
   "Labor market tightness pressuring wages",
   "FX moves altering import prices",
   "Commodity basis widening for key inputs",
   "Port congestion risk elevating lead times"]

/-- The tones array `["good", "bad", "warn"]` indexed during padding. -/
def tones : List String := ["good", "bad", "warn"]

/-- JS `Math.floor` of a non-negative number, used as an array index. -/
def jsFloorNat (q : ℚ) : Nat := ⌊q⌋.toNat

/-- The `while (out.length < 3)` padding loop of `synthDrivers`.  Each
iteration pushes exactly one driver, so the loop body runs at most three
times; the explicit fuel of 3 therefore reproduces the loop exactly. -/
def padLoop : Nat → Nat → List Driver → List Driver × Nat
  | 0, a, out => (out, a)
  | fuel + 1, a, out =>
    if out.length < 3 then
      let (a1, q1) := nextDraw a
      let item := pool.get? (jsFloorNat (q1 * 5))
      let (a2, q2) := nextDraw a1
      let tone := tones.get? (jsFloorNat (q2 * 3))
      padLoop fuel a2 (out ++ [⟨item, tone⟩])
    else (out, a)

/-- `synthDrivers(text, r)` (`src/api/forecast.js:153-176`): lower-case
the text, apply the rules, pad to at least 3 entries drawing from the
PRNG, and truncate with `slice(0, 6)`.  Returns the drivers and the PRNG
state after the consumed draws. -/
def synthDrivers (text : String) (a : Nat) : List Driver × Nat :=
  let t := (lowerStr text).toList
  let (padded, a') := padLoop 3 a (ruleDrivers t)
  (padded.take 6, a')

/-! ## Deterministic demo forecast (`src/api/forecast.js:53-77`) -/

/-- JS `Math.round`: round half toward positive infinity. -/
def jsRound (q : ℚ) : Int := ⌊q + 1 / 2⌋

/-- `round1(n) = Math.round(n * 10) / 10`. -/
def round1 (q : ℚ) : ℚ := (jsRound (q * 10) : ℚ) / 10

/-- `clamp01(x) = Math.max(0, Math.min(1, x))`. -/
def clamp01 (q : ℚ) : ℚ := max 0 (min 1 q)

/-- `horizonMonths(h)` (`src/api/forecast.js:147`). -/
def horizonMonths (h : String) : Nat :=
  if h = "short" then 3 else if h = "medium" then 12 else if h = "long" then 24 else 12

/-- The maximal whitespace-free words of a char list, scanned left to
right with the current word accumulated in reverse. -/
def wordsAux : List Char → List Char → List (List Char)
  | [], cur => if cur = [] then [] else [cur.reverse]
  | c :: rest, cur =>
    if c.isWhitespace then
      if cur = [] then wordsAux rest [] else cur.reverse :: wordsAux rest []
    else wordsAux rest (c :: cur)

/-- `canonicalize(s)`: `String(s).trim().replace(/\s+/g, " ")`
(`src/api/forecast.js:150`) — the whitespace-separated words joined by
single spaces (ASCII whitespace, which covers the inputs in scope). -/
def canonicalize (s : String) : String :=
  String.mk (List.intercalate [' '] (wordsAux s.data []))

/-- The request fields the demo forecast path reads, after the JS
destructuring defaults (`horizon = "medium"`, `scenario = "Base"`,
`extra_factors = ""`) have been applied. -/
structure ForecastReq where
  event : String
  geo : String
  naics : String
  horizon : String
  scenario : String
  extra_factors : String
deriving DecidableEq, Repr

/-- The pipe-joined seed string of `src/api/forecast.js:53`. -/
def seedStr (r : ForecastReq) : String :=
  r.event ++ "|" ++ r.geo ++ "|" ++ r.naics ++ "|" ++ r.horizon ++ "|" ++
    r.scenario ++ "|" ++ r.extra_factors

/-- `String(scenario || "Base").toLowerCase()` (`src/api/forecast.js:55`):
an empty scenario string is falsy and falls back to `"Base"`. -/
def scenLower (scenario : String) : String :=
  lowerStr (if scenario = "" then "Base" else scenario)

/-- The scenario multiplier of `src/api/forecast.js:56`:
`scen.includes("severe") ? 1.8 : scen.includes("best") ? 0.6 : 1.0`. -/
def scenMult (scenario : String) : ℚ :=
  if containsSub "severe".toList (scenLower scenario).toList then 1.8
  else if containsSub "best".toList (scenLower scenario).toList then 0.6
  else 1

/-- The numeric and qualitative payload of a forecast response. -/
structure ForecastOut where
  demand_pct : ℚ
  cost_pct : ℚ
  margin_bps : Int
  drivers : List Driver
  confidence : ℚ
deriving DecidableEq, Repr

/-- The deterministic demo forecast path (`src/api/forecast.js:53-62`):
seed, PRNG, scenario multiplier, then the draws in source order —
demand, cost, margin factor, driver padding, confidence. -/
def demoForecast (r : ForecastReq) : ForecastOut :=
  let seed := djb2Hash (seedStr r)
  let m := scenMult r.scenario
  let (a1, d1) := nextDraw seed
  let demand := round1 ((d1 - 0.55) * 8 * m)
  let (a2, d2) := nextDraw a1
  let cost := round1 ((d2 - 0.45) * 5 * m)
  let (a3, d3) := nextDraw a2
  let margin := jsRound ((-(demand * 8) + cost * 12) * (0.6 + d3 * 0.5))
  let (drv, a4) := synthDrivers (r.event ++ " " ++ r.extra_factors) a3
  let (_, d5) := nextDraw a4
  let conf := clamp01 (0.55 + (d5 - 0.5) * 0.25)
  { demand_pct := demand, cost_pct := cost, margin_bps := margin,
    drivers := drv, confidence := conf }

/-! ## Forecast handlers (`src/api/forecast.js:28-77`, `src/unnamed/part_006`)

The model client is external; a handler run is parameterized by whether a
key is configured and by the outcome of the (single) client call. -/

/-- The validated shape of a parsed model payload, as the handlers read
it: `none` in a numeric field models an absent or non-finite value
(`num`/`toNum` then substitute the documented default); `none` in
`drivers` models a non-array value. -/
structure ModelJSON where
  demand_pct : Option ℚ
  cost_pct : Option ℚ
  margin_bps : Option ℚ
  drivers : Option (List Driver)
  confidence : Option ℚ
deriving DecidableEq, Repr

/-- Outcome of the model client call: it threw (HTTP error, timeout,
abort), it returned `null` or another falsy parse (`null`, `0`,
`false`, `""`), it parsed to a truthy NON-object (a number such as `42`
or a non-empty string — `typeof ≠ "object"`, yet truthy), or it parsed
to a truthy object whose fields are then read. -/
inductive ModelOutcome where
  | threw
  | nullOut
  | truthyPrim
  | parsed (o : ModelJSON)
deriving DecidableEq, Repr

/-- A handler response: the 400 validation rejection, or a 200 payload
with its `meta.source` tag. -/
inductive HandlerResp where
  | badRequest
  | ok (out : ForecastOut) (src : String)
deriving DecidableEq, Repr

/-- The `meta.source` tag of a 200 response. -/
def respSource : HandlerResp → Option String
  | .badRequest => none
  | .ok _ src => some src

/-- The payload of a 200 response. -/
def respOut : HandlerResp → Option ForecastOut
  | .badRequest => none
  | .ok out _ => some out

/-- The response normalization of `src/api/forecast.js:33-37`: absent
or non-finite fields default (`demand/cost/margin` to 0, `confidence`
to 0.6), a non-array `drivers` to `[]`, with `slice(0, 6)`.  Reading
the fields of a truthy non-object parse (`42.demand_pct` is
`undefined`) behaves as the all-`none` record. -/
def normalizeRich (o : ModelJSON) : ForecastOut :=
  { demand_pct := o.demand_pct.getD 0,
    cost_pct := o.cost_pct.getD 0,
    margin_bps := jsRound (o.margin_bps.getD 0),
    drivers := (o.drivers.getD []).take 6,
    confidence := clamp01 (o.confidence.getD 0.6) }

/-- The handler of `src/api/forecast.js:8-82`: validate (the raw
fields, untrimmed), and when a key is configured use the client result
if it is truthy (`if (out)`) — an object read field-wise, a truthy
non-object reading as all-`undefined` — tagged `"openrouter"`;
otherwise fall back to the deterministic demo path tagged
`"fallback-demo"` when a key was configured and `"demo"` when not. -/
def forecastHandler (hasKey : Bool) (mo : ModelOutcome) (r : ForecastReq) : HandlerResp :=
  if r.event = "" || r.geo = "" || r.naics = "" then .badRequest
  else if hasKey then
    match mo with
    | .parsed o => .ok (normalizeRich o) "openrouter"
    | .truthyPrim => .ok (normalizeRich ⟨none, none, none, none, none⟩) "openrouter"
    | _ => .ok (demoForecast r) "fallback-demo"
  else .ok (demoForecast r) "demo"

/-- JS `String.prototype.slice(0, n)` on the model text. -/
def sliceStr (n : Nat) (s : String) : String := String.mk (s.data.take n)

/-- JS `String.prototype.trim` (ASCII whitespace, which covers the
inputs in scope). -/
def trimStr (s : String) : String :=
  String.mk (((s.data.dropWhile Char.isWhitespace).reverse.dropWhile
    Char.isWhitespace).reverse)

/-- Driver coercion of `src/unnamed/part_006` lines 152-155: truncate the
text to 350 characters, keep a recognized tone and replace anything else
with `"warn"`. -/
def normDriver6 (d : Driver) : Driver :=
  ⟨some (sliceStr 350 (d.text.getD "")),
   some (if (d.tone.getD "") ∈ tones then d.tone.getD "" else "warn")⟩

/-- Model-output coercion of `src/unnamed/part_006` lines 148-161. -/
def normalize6 (o : ModelJSON) : ForecastOut :=
  { demand_pct := o.demand_pct.getD 0,
    cost_pct := o.cost_pct.getD 0,
    margin_bps := jsRound (o.margin_bps.getD 0),
    drivers := ((o.drivers.getD []).map normDriver6).take 20,
    confidence := clamp01 (o.confidence.getD 0.7) }

/-- The constant fallback payload of `src/unnamed/part_006` lines 165-186. -/
def fallback6 : ForecastOut :=
  { demand_pct := -3.2,
    cost_pct := 2.1,
    margin_bps := -180,
    drivers :=
      [⟨some "Lower consumer confidence reduces discretionary spending.", some "warn"⟩,
       ⟨some "Energy costs and logistics disruptions raise input prices.", some "bad"⟩,
       ⟨some "Operational optimization and digital tools offset part of the loss.", some "good"⟩],
    confidence := 0.84 }

/-- The handler of `src/unnamed/part_006` (the v3.1 forecast endpoint):
validate the TRIMMED fields; the coerced payload is used only when the
parse is a truthy object (`modelJSON && typeof modelJSON === "object"`),
but the source tag tests only truthiness (`modelJSON ? "openrouter" :
"fallback"`) — so a truthy non-object parse serves the constant
fallback payload under the `"openrouter"` tag, while a thrown call or a
falsy parse (key or no key) serves it tagged `"fallback"`. -/
def handler6 (hasKey : Bool) (mo : ModelOutcome) (r : ForecastReq) : HandlerResp :=
  if trimStr r.event = "" || trimStr r.geo = "" || trimStr r.naics = "" then .badRequest
  else
    match hasKey, mo with
    | true, .parsed o => .ok (normalize6 o) "openrouter"
    | true, .truthyPrim => .ok fallback6 "openrouter"
    | _, _ => .ok fallback6 "fallback"

/-! ## Quota ledger (`src/api/usage/get.js`, the `usage/incr` handler) -/

/-- The stored usage counter document for one `(userId, periodKey)`. -/
structure Counter where
  count : Nat
  cap : Nat
deriving DecidableEq, Repr

/-- `DEFAULT_CAP = 10`. -/
def DEFAULT_CAP : Nat := 10

/-- JS `x || d` on a number already coerced to `Nat`: `0` is falsy. -/
def jsOrDefault (n d : Nat) : Nat := if n = 0 then d else n

/-- `Number(prev.count || 0)`: an absent document reads as count `0`. -/
def readCount : Option Counter → Nat
  | none => 0
  | some c => c.count

/-- `Number(prev.cap || DEFAULT_CAP)`: an absent document — or a stored
cap of `0` — reads as `DEFAULT_CAP`. -/
def readCap : Option Counter → Nat
  | none => DEFAULT_CAP
  | some c => jsOrDefault c.cap DEFAULT_CAP

/-- Outcome of one increment: the 200 `{count, cap}` body, or the 402
`QuotaExceeded` rejection carrying `{count, cap}`. -/
inductive IncrOutcome where
  | ok (count cap : Nat)
  | quotaExceeded (count cap : Nat)
deriving DecidableEq, Repr

/-- The transaction body of the `usage/incr` handler: read the document,
compute `next = count + 1`; past the cap, throw (the transaction aborts,
the document is untouched); otherwise write `{count: next, cap}` and
return it.  Firestore runs the closure transactionally, so concurrent
increments behave as some serial order of these atomic steps. -/
def txIncr (doc : Option Counter) : Option Counter × IncrOutcome :=
  let cap := readCap doc
  let next := readCount doc + 1
  if next > cap then (doc, .quotaExceeded (readCount doc) cap)
  else (some ⟨next, cap⟩, .ok next cap)

/-- `n` increments executed in (serialized) order against one counter,
returning the final document and each increment's outcome in order. -/
def runIncrs : Nat → Option Counter → Option Counter × List IncrOutcome
  | 0, doc => (doc, [])
  | n + 1, doc =>
    let (doc1, r) := txIncr doc
    let (doc2, rs) := runIncrs n doc1
    (doc2, r :: rs)

/-- The `count` values of the admitted increments, in order. -/
def okCounts (rs : List IncrOutcome) : List Nat :=
  rs.filterMap fun o => match o with | .ok c _ => some c | _ => none

/-- Whether an outcome is the `QuotaExceeded` rejection. -/
def isExceeded : IncrOutcome → Bool
  | .quotaExceeded _ _ => true
  | _ => false

/-- The stored document after `n` serialized increments. -/
def iterIncr (n : Nat) (doc : Option Counter) : Option Counter := (runIncrs n doc).1

/-- The seed the demo path derives from a request. -/
def seedOf (r : ForecastReq) : Nat := djb2Hash (seedStr r)

/-- How many keyword rules fire on the driver text of a request. -/
def ruleCount (r : ForecastReq) : Nat :=
  (ruleDrivers (lowerStr (r.event ++ " " ++ r.extra_factors)).toList).length

end EcoForecast

namespace EcoForecast

-- sanity checks against an independent reference evaluation
example : djb2Hash "" = 5381 := by decide
example : djb2Hash "a" = 177670 := by decide
example : djb2Hash "hello" = 261238937 := by decide
example : mulbOut (mulbStep 42) = 2581720956 := by decide
example : mulbOut (mulbStep (mulbStep 42)) = 1925393290 := by decide
example : mulbOut (mulbStep 3543772583) = 4294967295 := by decide

/-! ## 32-bit coercions and the djb2 hash -/

lemma M32_cast : ((M32 : Nat) : Int) = 4294967296 := by norm_num [M32]

lemma toUint32_cast (x : Int) : (toUint32 x : Int) = x % (M32 : Int) := by
  have hne : ((M32 : Nat) : Int) ≠ 0 := by rw [M32_cast]; norm_num
  exact Int.toNat_of_nonneg (Int.emod_nonneg x hne)

lemma toUint32_lt (x : Int) : toUint32 x < M32 := by
  have h := toUint32_cast x
  have hlt : x % (M32 : Int) < (M32 : Int) :=
    Int.emod_lt_of_pos x (by rw [M32_cast]; norm_num)
  omega

lemma toInt32_emod (x : Int) : toInt32 x % (M32 : Int) = x % (M32 : Int) := by
  unfold toInt32
  split
  · rw [toUint32_cast, Int.emod_emod_of_dvd x dvd_rfl]
  · rw [M32_cast] at *
    have h := toUint32_cast x
    rw [M32_cast] at h
    omega

lemma djb2Step_emod (h : Int) (c : Nat) :
    djb2Step h c % (M32 : Int) = (33 * h + c) % (M32 : Int) := by
  have h32 := toInt32_emod (32 * h)
  unfold djb2Step
  rw [M32_cast] at *
  omega

lemma toUint32_djb2Step (h : Int) (c : Nat) :
    toUint32 (djb2Step h c) = (33 * toUint32 h + c) % M32 := by
  have h1 : (toUint32 (djb2Step h c) : Int) = (((33 * toUint32 h + c) % M32 : Nat) : Int) := by
    rw [toUint32_cast, djb2Step_emod]
    have hu := toUint32_cast h
    push_cast
    rw [hu, M32_cast] at *
    omega
  exact_mod_cast h1

lemma foldl_djb2Step (codes : List Nat) : ∀ h : Int,
    toUint32 (codes.foldl djb2Step h) =
      codes.foldl (fun a c => (33 * a + c) % M32) (toUint32 h) := by
  induction codes with
  | nil => intro h; rfl
  | cons c cs ih =>
    intro h
    rw [List.foldl_cons, List.foldl_cons, ih, toUint32_djb2Step]

lemma djb2_eq_pure (codes : List Nat) : djb2 codes = djb2Pure codes := by
  unfold djb2 djb2Pure
  rw [foldl_djb2Step]
  have h : toUint32 5381 = 5381 := by decide
  rw [h]

/-! ## The mulberry32 stream -/

lemma M32_eq_pow : M32 = 2 ^ 32 := by norm_num [M32]

lemma mulbStep_lt (a : Nat) : mulbStep a < M32 :=
  Nat.mod_lt _ (by norm_num [M32])

lemma mulbOut_lt (a : Nat) : mulbOut a < M32 := by
  unfold mulbOut imul32
  rw [M32_eq_pow] at *
  have h1 : (a ^^^ a >>> 15) * (a ||| 1) % 2 ^ 32 < 2 ^ 32 :=
    Nat.mod_lt _ (by norm_num)
  have h2 : ∀ x y : Nat, x < 2 ^ 32 → y < 2 ^ 32 → x ^^^ y < 2 ^ 32 := fun x y hx hy =>
    Nat.xor_lt_two_pow hx hy
  have h3 : ∀ x : Nat, x < 2 ^ 32 → ∀ k, x >>> k < 2 ^ 32 := by
    intro x hx k
    calc x >>> k ≤ x := by
          rw [Nat.shiftRight_eq_div_pow]; exact Nat.div_le_self x (2 ^ k)
      _ < 2 ^ 32 := hx
  apply h2 _ _ (h2 _ _ h1 (Nat.mod_lt _ (by norm_num))) (h3 _ (h2 _ _ h1 (Nat.mod_lt _ (by norm_num))) 14)

lemma drawOf_nonneg (a : Nat) : 0 ≤ drawOf a := by
  unfold drawOf
  positivity

lemma drawOf_le_one (a : Nat) : drawOf a ≤ 1 := by
  unfold drawOf
  rw [div_le_one (by norm_num)]
  have h := mulbOut_lt a
  rw [M32_eq_pow] at h
  exact_mod_cast Nat.le_of_lt_succ (by norm_num at h ⊢; omega)

lemma stateAt_lt (a : Nat) (k : Nat) : stateAt a (k + 1) < M32 := mulbStep_lt _

lemma stateAt_shift (a : Nat) : ∀ k, stateAt (mulbStep a) k = stateAt a (k + 1) := by
  intro k
  induction k with
  | zero => simp only [stateAt]
  | succ m ih => simp only [stateAt]; rw [ih]; simp only [stateAt]

lemma stateAt_add (a : Nat) (m : Nat) : ∀ n, stateAt a (m + n) = stateAt (stateAt a m) n := by
  intro n
  induction n with
  | zero => rfl
  | succ k ih =>
    show stateAt a (m + k + 1) = stateAt (stateAt a m) (k + 1)
    simp only [stateAt]
    rw [ih]

lemma drawAt_shift (a k : Nat) : drawAt (mulbStep a) k = drawAt a (k + 1) := by
  unfold drawAt
  rw [stateAt_shift]

lemma drawAt_zero (a : Nat) : drawAt a 0 = drawOf (mulbStep a) := by
  unfold drawAt
  simp only [stateAt]

lemma drawsList_eq (n : Nat) : ∀ a, drawsList a n = (List.range n).map (drawAt a) := by
  induction n with
  | zero => intro a; rfl
  | succ m ih =>
    intro a
    rw [List.range_succ_eq_map]
    show drawOf (mulbStep a) :: drawsList (mulbStep a) m = _
    rw [List.map_cons, ih (mulbStep a), List.map_map, drawAt_zero]
    exact congrArg _ (List.map_congr_left fun k _ => drawAt_shift a k)

/-- C8 (amended): the seed of a string is its djb2 hash — start 5381,
`hash = hash*33 + charCode` per character, reduced to an unsigned 32-bit
integer — and the threaded mulberry32 stream is a pure function of the
seed (the first `n` draws are exactly `drawAt seed 0, …, drawAt seed
(n-1)`), with every draw in the CLOSED interval `[0, 1]`: the code
divides the finalized uint32 by `4294967295 = 2^32 - 1`, so the draw
reaches `1` exactly when the finalizer yields `4294967295`. -/
theorem prng_contract :
    (∀ codes : List Nat, djb2 codes = djb2Pure codes) ∧
    (∀ s : String, djb2Hash s = djb2Pure (strCodes s)) ∧
    (∀ a n : Nat, drawsList a n = (List.range n).map (drawAt a)) ∧
    (∀ a k : Nat, 0 ≤ drawAt a k ∧ drawAt a k ≤ 1) := by
  refine ⟨djb2_eq_pure, fun s => djb2_eq_pure _, fun a n => drawsList_eq n a, fun a k => ?_⟩
  exact ⟨drawOf_nonneg _, drawOf_le_one _⟩

/-- C8, counterexample to the claimed half-open range `[0, 1)`: from
seed `3543772583` the very first draw is exactly `1`, because the
incremented state `1080371100` finalizes to `4294967295` and the code
divides by `4294967295`. -/
theorem prng_draw_reaches_one :
    drawAt 3543772583 0 = 1 ∧ ¬ drawAt 3543772583 0 < 1 := by
  have h1 : mulbOut (mulbStep 3543772583) = 4294967295 := by decide
  have h2 : drawAt 3543772583 0 = 1 := by
    show drawOf (mulbStep (stateAt 3543772583 0)) = 1
    rw [drawOf, show stateAt 3543772583 0 = 3543772583 from rfl, h1]
    norm_num
  exact ⟨h2, by rw [h2]; exact lt_irrefl 1⟩

/-! ## Driver synthesizer bounds -/

lemma ruleDrivers_length_le (t : List Char) : (ruleDrivers t).length ≤ 6 := by
  unfold ruleDrivers
  split_ifs <;> simp

lemma padLoop_fst_length :
    ∀ fuel a (out : List Driver), 3 ≤ out.length + fuel →
      (padLoop fuel a out).1.length = max out.length 3 := by
  intro fuel
  induction fuel with
  | zero =>
    intro a out h
    simp only [padLoop]
    show out.length = max out.length 3
    omega
  | succ n ih =>
    intro a out h
    simp only [padLoop]
    split
    · rw [ih _ _ (by simp; omega)]
      simp only [List.length_append, List.length_cons, List.length_nil]
      omega
    · show out.length = max out.length 3
      omega

lemma padLoop_fst_mem :
    ∀ fuel a (out : List Driver) d, d ∈ (padLoop fuel a out).1 →
      d ∈ out ∨ ∃ i j, d = ⟨pool.get? i, tones.get? j⟩ := by
  intro fuel
  induction fuel with
  | zero =>
    intro a out d hd
    exact Or.inl hd
  | succ n ih =>
    intro a out d hd
    simp only [padLoop] at hd
    split at hd
    · rcases ih _ _ _ hd with hmem | hnew
      · rcases List.mem_append.1 hmem with h1 | h2
        · exact Or.inl h1
        · rw [List.mem_singleton] at h2
          exact Or.inr ⟨_, _, h2⟩
      · exact Or.inr hnew
    · exact Or.inl hd

/-- C3: for every input text (the empty string included) and every PRNG
state, `synthDrivers` returns between 3 and 6 drivers inclusive, and
every driver beyond the keyword rules comes from the fixed fallback pool
(text drawn from `pool`, tone from `tones`, both PRNG-indexed);
truncation is `take 6`, which preserves insertion order. -/
theorem synthDrivers_bounds (text : String) (a : Nat) :
    3 ≤ (synthDrivers text a).1.length ∧ (synthDrivers text a).1.length ≤ 6 ∧
    ∀ d ∈ (synthDrivers text a).1,
      d ∈ ruleDrivers (lowerStr text).toList ∨ ∃ i j, d = ⟨pool.get? i, tones.get? j⟩ := by
  have hrule := ruleDrivers_length_le (lowerStr text).toList
  have hlen := padLoop_fst_length 3 a (ruleDrivers (lowerStr text).toList) (by omega)
  have heq : synthDrivers text a =
      ((padLoop 3 a (ruleDrivers (lowerStr text).toList)).1.take 6,
        (padLoop 3 a (ruleDrivers (lowerStr text).toList)).2) := rfl
  refine ⟨?_, ?_, ?_⟩
  · rw [heq]
    simp only [List.length_take]
    omega
  · rw [heq]
    simp only [List.length_take]
    omega
  · intro d hd
    rw [heq] at hd
    exact padLoop_fst_mem 3 a _ d (List.mem_of_mem_take hd)

/-! ## The demo forecast path in terms of absolute draw indices -/

lemma stateAt_one (a : Nat) : stateAt a 1 = mulbStep a := by simp [stateAt]

lemma padLoop_snd :
    ∀ fuel a (out : List Driver), 3 - out.length ≤ fuel →
      (padLoop fuel a out).2 = stateAt a (2 * (3 - out.length)) := by
  intro fuel
  induction fuel with
  | zero =>
    intro a out h
    simp only [padLoop]
    rw [show 3 - out.length = 0 by omega]
    rfl
  | succ n ih =>
    intro a out h
    simp only [padLoop]
    split
    · rw [ih _ _ (by simp; omega)]
      simp only [nextDraw, List.length_append, List.length_cons, List.length_nil]
      rw [stateAt_shift, stateAt_shift]
      congr 1
      omega
    · rw [show 3 - out.length = 0 by omega]
      rfl

lemma synthDrivers_snd (text : String) (a : Nat) :
    (synthDrivers text a).2 =
      stateAt a (2 * (3 - (ruleDrivers (lowerStr text).toList).length)) := by
  show (padLoop 3 a (ruleDrivers (lowerStr text).toList)).2 = _
  exact padLoop_snd 3 a _ (by omega)

/-- The demo path, re-expressed against the pure index-based draw
stream: demand consumes draw 0, cost draw 1, the margin factor draw 2,
the driver padding draws `3 … 3 + 2*pads - 1`, and confidence the draw
right after — the fixed order of the source. -/
lemma demoForecast_eq (r : ForecastReq) :
    demoForecast r =
      { demand_pct := round1 ((drawAt (seedOf r) 0 - 0.55) * 8 * scenMult r.scenario),
        cost_pct := round1 ((drawAt (seedOf r) 1 - 0.45) * 5 * scenMult r.scenario),
        margin_bps := jsRound
          ((-(round1 ((drawAt (seedOf r) 0 - 0.55) * 8 * scenMult r.scenario) * 8) +
              round1 ((drawAt (seedOf r) 1 - 0.45) * 5 * scenMult r.scenario) * 12) *
            (0.6 + drawAt (seedOf r) 2 * 0.5)),
        drivers := (synthDrivers (r.event ++ " " ++ r.extra_factors) (stateAt (seedOf r) 3)).1,
        confidence := clamp01
          (0.55 + (drawAt (seedOf r) (3 + 2 * (3 - ruleCount r)) - 0.5) * 0.25) } := by
  have h1 : mulbStep (seedOf r) = stateAt (seedOf r) 1 := by simp [stateAt]
  have h2 : mulbStep (stateAt (seedOf r) 1) = stateAt (seedOf r) 2 := by simp [stateAt]
  have h3 : mulbStep (stateAt (seedOf r) 2) = stateAt (seedOf r) 3 := by simp [stateAt]
  have h4 : (synthDrivers (r.event ++ " " ++ r.extra_factors) (stateAt (seedOf r) 3)).2 =
      stateAt (seedOf r) (3 + 2 * (3 - ruleCount r)) := by
    rw [synthDrivers_snd, ← stateAt_add, ruleCount]
  have h5 : mulbStep (stateAt (seedOf r) (3 + 2 * (3 - ruleCount r))) =
      stateAt (seedOf r) (3 + 2 * (3 - ruleCount r) + 1) := by simp [stateAt]
  show demoForecast r = _
  unfold demoForecast
  simp only [nextDraw]
  rw [show djb2Hash (seedStr r) = seedOf r from rfl, h1, h2, h3, h4, h5]
  rfl

/-- C2: the demo forecast is a pure function of the six request fields —
two requests with equal fields produce identical results — and each
result field consumes the PRNG stream of `seedOf r` at fixed positions,
in the source order: demand at draw 0, cost at draw 1, the margin factor
at draw 2, the driver padding from state 3 on, and confidence at the
draw right after the padding. -/
theorem demo_determinism (r r2 : ForecastReq)
    (he : r2.event = r.event) (hg : r2.geo = r.geo) (hn : r2.naics = r.naics)
    (hh : r2.horizon = r.horizon) (hs : r2.scenario = r.scenario)
    (hx : r2.extra_factors = r.extra_factors) :
    demoForecast r2 = demoForecast r ∧
    (demoForecast r).demand_pct =
      round1 ((drawAt (seedOf r) 0 - 0.55) * 8 * scenMult r.scenario) ∧
    (demoForecast r).cost_pct =
      round1 ((drawAt (seedOf r) 1 - 0.45) * 5 * scenMult r.scenario) ∧
    (demoForecast r).margin_bps =
      jsRound ((-((demoForecast r).demand_pct * 8) + (demoForecast r).cost_pct * 12) *
        (0.6 + drawAt (seedOf r) 2 * 0.5)) ∧
    (demoForecast r).drivers =
      (synthDrivers (r.event ++ " " ++ r.extra_factors) (stateAt (seedOf r) 3)).1 ∧
    (demoForecast r).confidence =
      clamp01 (0.55 + (drawAt (seedOf r) (3 + 2 * (3 - ruleCount r)) - 0.5) * 0.25) := by
  refine ⟨?_, ?_⟩
  · obtain ⟨e, g, n, hz, s, x⟩ := r
    obtain ⟨e2, g2, n2, hz2, s2, x2⟩ := r2
    cases he; cases hg; cases hn; cases hh; cases hs; cases hx
    rfl
  · rw [demoForecast_eq r]
    exact ⟨rfl, rfl, rfl, rfl, rfl⟩

/-- C2, witnessed at the end-to-end example request of the spec. -/
theorem demo_determinism_witness :
    demoForecast ⟨"10% steel tariff", "Phoenix, AZ", "3313", "medium", "Base", ""⟩ =
      demoForecast ⟨"10% steel tariff", "Phoenix, AZ", "3313", "medium", "Base", ""⟩ :=
  (demo_determinism ⟨"10% steel tariff", "Phoenix, AZ", "3313", "medium", "Base", ""⟩
    ⟨"10% steel tariff", "Phoenix, AZ", "3313", "medium", "Base", ""⟩
    rfl rfl rfl rfl rfl rfl).1

/-! ## Scenario multiplier (C7) and margin sign (C9) -/

lemma scenMult_of_severe (scenario : String)
    (h : containsSub "severe".toList (scenLower scenario).toList = true) :
    scenMult scenario = 1.8 := by
  unfold scenMult
  rw [if_pos h]

lemma scenMult_of_best (scenario : String)
    (hs : containsSub "severe".toList (scenLower scenario).toList = false)
    (hb : containsSub "best".toList (scenLower scenario).toList = true) :
    scenMult scenario = 0.6 := by
  unfold scenMult
  rw [if_neg (by rw [hs]; exact Bool.false_ne_true), if_pos hb]

lemma scenMult_of_neither (scenario : String)
    (hs : containsSub "severe".toList (scenLower scenario).toList = false)
    (hb : containsSub "best".toList (scenLower scenario).toList = false) :
    scenMult scenario = 1 := by
  unfold scenMult
  rw [if_neg (by rw [hs]; exact Bool.false_ne_true),
    if_neg (by rw [hb]; exact Bool.false_ne_true)]

/-- C7 (amended): the multiplier selection is as claimed — `severe`
substring selects 1.8, `best` (without `severe`) selects 0.6, anything
else 1.0 — and the multiplier scales the pre-rounding demand and cost
terms built from the request's own draws; but the scenario string is
part of the hashed seed, so a Severe request and a Base request draw
from different streams and their results need not stand in the 1.8
ratio (see the counterexample). -/
theorem scenario_multiplier (r : ForecastReq) :
    (containsSub "severe".toList (scenLower r.scenario).toList = true →
      scenMult r.scenario = 1.8) ∧
    (containsSub "severe".toList (scenLower r.scenario).toList = false →
      containsSub "best".toList (scenLower r.scenario).toList = true →
      scenMult r.scenario = 0.6) ∧
    (containsSub "severe".toList (scenLower r.scenario).toList = false →
      containsSub "best".toList (scenLower r.scenario).toList = false →
      scenMult r.scenario = 1) ∧
    (demoForecast r).demand_pct =
      round1 ((drawAt (seedOf r) 0 - 0.55) * 8 * scenMult r.scenario) ∧
    (demoForecast r).cost_pct =
      round1 ((drawAt (seedOf r) 1 - 0.45) * 5 * scenMult r.scenario) := by
  refine ⟨scenMult_of_severe r.scenario, scenMult_of_best r.scenario,
    scenMult_of_neither r.scenario, ?_, ?_⟩ <;> rw [demoForecast_eq r]

/-- C7, witnessed: a scenario containing `severe` selects 1.8. -/
theorem scenario_multiplier_witness : scenMult "Severe" = 1.8 :=
  (scenario_multiplier ⟨"a", "b", "c", "medium", "Severe", ""⟩).1 (by decide)

/-! ## Concrete evaluation of the demo path at a Base/Severe request pair -/

lemma demand_base_eval :
    (demoForecast ⟨"a", "b", "c", "medium", "Base", ""⟩).demand_pct = -4 := by
  rw [demoForecast_eq]
  show round1 ((drawAt (seedOf ⟨"a", "b", "c", "medium", "Base", ""⟩) 0 - 0.55) * 8 *
    scenMult "Base") = -4
  rw [show seedOf ⟨"a", "b", "c", "medium", "Base", ""⟩ = 2357520275 from by decide,
    scenMult_of_neither "Base" (by decide) (by decide)]
  rw [show drawAt 2357520275 0 = (192437365 : ℚ) / 4294967295 from by
    show drawOf (stateAt 2357520275 (0 + 1)) = _
    rw [show stateAt 2357520275 (0 + 1) = 4189086088 from by decide, drawOf,
      show mulbOut 4189086088 = 192437365 from by decide]
    norm_num]
  rw [round1, jsRound,
    show ⌊((192437365 : ℚ) / 4294967295 - 0.55) * 8 * 1 * 10 + 1 / 2⌋ = (-40 : Int) from
      Int.floor_eq_iff.mpr (by norm_num)]
  norm_num

lemma cost_base_eval :
    (demoForecast ⟨"a", "b", "c", "medium", "Base", ""⟩).cost_pct = 23 / 10 := by
  rw [demoForecast_eq]
  show round1 ((drawAt (seedOf ⟨"a", "b", "c", "medium", "Base", ""⟩) 1 - 0.45) * 5 *
    scenMult "Base") = 23 / 10
  rw [show seedOf ⟨"a", "b", "c", "medium", "Base", ""⟩ = 2357520275 from by decide,
    scenMult_of_neither "Base" (by decide) (by decide)]
  rw [show drawAt 2357520275 1 = (3909121742 : ℚ) / 4294967295 from by
    show drawOf (stateAt 2357520275 (1 + 1)) = _
    rw [show stateAt 2357520275 (1 + 1) = 1725684605 from by decide, drawOf,
      show mulbOut 1725684605 = 3909121742 from by decide]
    norm_num]
  rw [round1, jsRound,
    show ⌊((3909121742 : ℚ) / 4294967295 - 0.45) * 5 * 1 * 10 + 1 / 2⌋ = (23 : Int) from
      Int.floor_eq_iff.mpr (by norm_num)]
  norm_num

lemma demand_severe_eval :
    (demoForecast ⟨"a", "b", "c", "medium", "Severe", ""⟩).demand_pct = -11 / 10 := by
  rw [demoForecast_eq]
  show round1 ((drawAt (seedOf ⟨"a", "b", "c", "medium", "Severe", ""⟩) 0 - 0.55) * 8 *
    scenMult "Severe") = -11 / 10
  rw [show seedOf ⟨"a", "b", "c", "medium", "Severe", ""⟩ = 3884314658 from by decide,
    scenMult_of_severe "Severe" (by decide)]
  rw [show drawAt 3884314658 0 = (2032856364 : ℚ) / 4294967295 from by
    show drawOf (stateAt 3884314658 (0 + 1)) = _
    rw [show stateAt 3884314658 (0 + 1) = 1420913175 from by decide, drawOf,
      show mulbOut 1420913175 = 2032856364 from by decide]
    norm_num]
  rw [round1, jsRound,
    show ⌊((2032856364 : ℚ) / 4294967295 - 0.55) * 8 * 1.8 * 10 + 1 / 2⌋ = (-11 : Int) from
      Int.floor_eq_iff.mpr (by norm_num)]
  norm_num

/-- C7, counterexample to the claimed 1.8 ratio between actual results:
for the request `event="a", geo="b", naics="c", horizon="medium"`, the
Severe demand is `-1.1` while the Base demand is `-4.0` — the magnitudes
differ from the claimed `1.8 ×` relation by `6.1`, far beyond the `0.1`
rounding granularity. -/
theorem scenario_ratio_counterexample :
    (demoForecast ⟨"a", "b", "c", "medium", "Severe", ""⟩).demand_pct = -11 / 10 ∧
    (demoForecast ⟨"a", "b", "c", "medium", "Base", ""⟩).demand_pct = -4 ∧
    1 < abs
      (abs (demoForecast ⟨"a", "b", "c", "medium", "Severe", ""⟩).demand_pct -
        1.8 * abs (demoForecast ⟨"a", "b", "c", "medium", "Base", ""⟩).demand_pct) := by
  refine ⟨demand_severe_eval, demand_base_eval, ?_⟩
  rw [demand_severe_eval, demand_base_eval]
  rw [show abs ((-11 : ℚ) / 10) = 11 / 10 by rw [abs_of_neg (by norm_num)]; norm_num,
    show abs ((-4 : ℚ)) = 4 by rw [abs_of_neg (by norm_num)]; norm_num]
  rw [show (11 : ℚ) / 10 - 1.8 * 4 = -61 / 10 by norm_num,
    show abs ((-61 : ℚ) / 10) = 61 / 10 by rw [abs_of_neg (by norm_num)]; norm_num]
  norm_num

/-! ## Margin sign coupling (C9) -/

lemma jsRound_nonneg (q : ℚ) (h : 0 ≤ q) : 0 ≤ jsRound q := by
  unfold jsRound
  exact Int.le_floor.mpr (by push_cast; linarith)

lemma jsRound_nonpos (q : ℚ) (h : q ≤ 0) : jsRound q ≤ 0 := by
  unfold jsRound
  have : ⌊q + 1 / 2⌋ < 1 := Int.floor_lt.mpr (by push_cast; linarith)
  omega

lemma margin_factor_nonneg (r : ForecastReq) : 0 ≤ 0.6 + drawAt (seedOf r) 2 * 0.5 := by
  have h := drawOf_nonneg (stateAt (seedOf r) (2 + 1))
  unfold drawAt
  nlinarith

/-- C9: the synthesized `margin_bps` never strictly opposes the sign of
`-(demand_pct * 8) + cost_pct * 12`: the stochastic factor
`0.6 + draw * 0.5` is non-negative and `Math.round` cannot carry a
non-negative product below zero or a non-positive one above it. -/
theorem margin_sign_coupling (r : ForecastReq) :
    (0 ≤ -((demoForecast r).demand_pct * 8) + (demoForecast r).cost_pct * 12 →
      0 ≤ (demoForecast r).margin_bps) ∧
    (-((demoForecast r).demand_pct * 8) + (demoForecast r).cost_pct * 12 ≤ 0 →
      (demoForecast r).margin_bps ≤ 0) := by
  have hfac := margin_factor_nonneg r
  have hm : (demoForecast r).margin_bps =
      jsRound ((-((demoForecast r).demand_pct * 8) + (demoForecast r).cost_pct * 12) *
        (0.6 + drawAt (seedOf r) 2 * 0.5)) := by
    conv_lhs => rw [demoForecast_eq r]
    rw [demoForecast_eq r]
  constructor
  · intro hb
    rw [hm]
    exact jsRound_nonneg _ (mul_nonneg hb hfac)
  · intro hb
    rw [hm]
    exact jsRound_nonpos _ (mul_nonpos_iff.mpr (Or.inr ⟨hb, hfac⟩))

/-- C9, witnessed at the Base request above: there the base expression
`-(demand*8) + cost*12 = 59.6` is non-negative and indeed the margin is
non-negative. -/
theorem margin_sign_coupling_witness :
    0 ≤ (demoForecast ⟨"a", "b", "c", "medium", "Base", ""⟩).margin_bps :=
  (margin_sign_coupling ⟨"a", "b", "c", "medium", "Base", ""⟩).1
    (by rw [demand_base_eval, cost_base_eval]; norm_num)

/-! ## Handler fallback and source tagging (C5, C6) -/

/-- C5: whenever the model client yields no usable output — it threw or
returned `null` — the handler of `src/api/forecast.js` answers a valid
request with exactly the Deterministic Synthesizer's payload, tagged
`"fallback-demo"` (key configured) or `"demo"` (no key), both members of
the allowed fallback-source set. -/
theorem fallback_equivalence (hasKey : Bool) (mo : ModelOutcome) (r : ForecastReq)
    (he : r.event ≠ "") (hg : r.geo ≠ "") (hn : r.naics ≠ "")
    (hmo : mo = .threw ∨ mo = .nullOut) :
    forecastHandler hasKey mo r =
      .ok (demoForecast r) (if hasKey then "fallback-demo" else "demo") ∧
    (if hasKey then "fallback-demo" else "demo") ∈
      (["demo", "fallback-demo", "openrouter_fallback"] : List String) := by
  have hcond : ¬ ((r.event = "" || r.geo = "" || r.naics = "" : Bool) = true) := by
    simp [he, hg, hn]
  unfold forecastHandler
  rw [if_neg hcond]
  rcases hmo with h | h <;> subst h <;> cases hasKey <;> simp

/-- C5, witnessed: a null model result with a key configured serves the
demo numbers under the `"fallback-demo"` tag. -/
theorem fallback_equivalence_witness :
    forecastHandler true .nullOut ⟨"x", "y", "z", "medium", "Base", ""⟩ =
      .ok (demoForecast ⟨"x", "y", "z", "medium", "Base", ""⟩) "fallback-demo" :=
  (fallback_equivalence true .nullOut ⟨"x", "y", "z", "medium", "Base", ""⟩
    (by decide) (by decide) (by decide) (Or.inr rfl)).1

lemma ne_empty_of_trim {s : String} (h : trimStr s ≠ "") : s ≠ "" := by
  intro hs
  exact h (by rw [hs]; rfl)

/-- C6 (amended): on valid requests both modelled handlers tag sources
from `{demo, openrouter, openrouter_2stage, fallback-demo, mock,
fallback}`.  In `src/api/forecast.js` the tag reflects the path:
`"openrouter"` exactly when a key was configured and the client parse
was truthy (an object used field-wise; a truthy non-object read as
all-defaults), `"fallback-demo"` when a key was configured but the call
threw or parsed falsy, `"demo"` when no key was configured.  The v3.1
handler (`src/unnamed/part_006`) tags `"openrouter"` exactly when the
parse was truthy — including a truthy NON-object, where it serves the
constant fallback payload under the `"openrouter"` tag — and
`"fallback"` on a thrown call or falsy parse, key or no key. -/
theorem source_tagging (hasKey : Bool) (mo : ModelOutcome) (r : ForecastReq)
    (he : trimStr r.event ≠ "") (hg : trimStr r.geo ≠ "") (hn : trimStr r.naics ≠ "") :
    (∀ src, respSource (forecastHandler hasKey mo r) = some src →
      src ∈ (["demo", "openrouter", "openrouter_2stage", "fallback-demo", "mock",
        "fallback"] : List String)) ∧
    (∀ src, respSource (handler6 hasKey mo r) = some src →
      src ∈ (["demo", "openrouter", "openrouter_2stage", "fallback-demo", "mock",
        "fallback"] : List String)) ∧
    (respSource (forecastHandler hasKey mo r) = some "openrouter" ↔
      hasKey = true ∧ (mo = .truthyPrim ∨ ∃ o, mo = .parsed o)) ∧
    (hasKey = true → mo = .threw ∨ mo = .nullOut →
      respSource (forecastHandler hasKey mo r) = some "fallback-demo") ∧
    (hasKey = false → respSource (forecastHandler hasKey mo r) = some "demo") ∧
    (respSource (handler6 hasKey mo r) = some "openrouter" ↔
      hasKey = true ∧ (mo = .truthyPrim ∨ ∃ o, mo = .parsed o)) ∧
    (hasKey = false ∨ mo = .threw ∨ mo = .nullOut →
      respSource (handler6 hasKey mo r) = some "fallback") ∧
    (hasKey = true → mo = .truthyPrim →
      handler6 hasKey mo r = .ok fallback6 "openrouter") := by
  have hcond : ¬ ((r.event = "" || r.geo = "" || r.naics = "" : Bool) = true) := by
    simp [ne_empty_of_trim he, ne_empty_of_trim hg, ne_empty_of_trim hn]
  have hcond6 : ¬ ((trimStr r.event = "" || trimStr r.geo = "" ||
      trimStr r.naics = "" : Bool) = true) := by
    simp [he, hg, hn]
  unfold forecastHandler handler6
  rw [if_neg hcond, if_neg hcond6]
  cases hasKey <;> cases mo <;> simp [respSource]

/-- C6, witnessed: with no key the `src/api/forecast.js` handler tags
`"demo"`. -/
theorem source_tagging_witness :
    respSource (forecastHandler false .nullOut ⟨"x", "y", "z", "medium", "Base", ""⟩) =
      some "demo" :=
  ((source_tagging false .nullOut ⟨"x", "y", "z", "medium", "Base", ""⟩
    (by decide) (by decide) (by decide)).2.2.2.2.1) rfl

/-- C6, counterexample: the v3.1 handler with no key answers a valid
request with `meta.source = "fallback"`, outside the claimed set
`{demo, openrouter, openrouter_2stage, fallback-demo, mock}` (and not
`"demo"` despite no key); and when the model content parses to a truthy
non-object (such as `42`) it serves the constant fallback payload —
numbers the model did not produce — still tagged `"openrouter"`. -/
theorem source_tag_counterexample :
    respSource (handler6 false .nullOut ⟨"e", "g", "n", "medium", "Base", ""⟩) =
      some "fallback" ∧
    "fallback" ∉ (["demo", "openrouter", "openrouter_2stage", "fallback-demo",
      "mock"] : List String) ∧
    handler6 true .truthyPrim ⟨"e", "g", "n", "medium", "Base", ""⟩ =
      .ok fallback6 "openrouter" := by
  refine ⟨by decide, by decide, rfl⟩

/-! ## Quota ledger (C1, C4, C10) -/

lemma readCap_pos (doc : Option Counter) : 1 ≤ readCap doc := by
  rcases doc with _ | c
  · simp [readCap, DEFAULT_CAP]
  · simp only [readCap, jsOrDefault]
    split
    · simp [DEFAULT_CAP]
    · omega

/-- C4: `increment` succeeds exactly when the incremented count stays
within the cap — returning and storing `{count+1, cap}` — and otherwise
fails with `QuotaExceeded{count, cap}` leaving the document untouched;
an absent document reads as `{count: 0, cap: DEFAULT_CAP}`. -/
theorem increment_iff_under_cap (doc : Option Counter) :
    readCount none = 0 ∧ readCap none = DEFAULT_CAP ∧
    (readCount doc + 1 ≤ readCap doc →
      txIncr doc = (some ⟨readCount doc + 1, readCap doc⟩,
        .ok (readCount doc + 1) (readCap doc))) ∧
    (readCap doc < readCount doc + 1 →
      txIncr doc = (doc, .quotaExceeded (readCount doc) (readCap doc))) := by
  refine ⟨rfl, rfl, ?_, ?_⟩ <;> intro h <;> unfold txIncr
  · rw [if_neg (by omega)]
  · rw [if_pos (by omega)]

/-- C4, witnessed: a fresh counter admits the first increment as
`{count: 1, cap: 10}`. -/
theorem increment_iff_under_cap_witness :
    txIncr none = (some ⟨1, 10⟩, .ok 1 10) :=
  (increment_iff_under_cap none).2.2.1 (by decide)

lemma runIncrs_succ (n : Nat) (doc : Option Counter) :
    runIncrs (n + 1) doc =
      ((runIncrs n (txIncr doc).1).1, (txIncr doc).2 :: (runIncrs n (txIncr doc).1).2) :=
  rfl

lemma runIncrs_spec : ∀ (n k C : Nat), 1 ≤ C → k ≤ C →
    runIncrs n (some ⟨k, C⟩) =
      (some ⟨min (k + n) C, C⟩,
        (List.range' (k + 1) (min n (C - k))).map (fun c => .ok c C) ++
          List.replicate (n - (C - k)) (.quotaExceeded C C)) := by
  intro n
  induction n with
  | zero =>
    intro k C hC hk
    have h1 : min (k + 0) C = k := by omega
    have h2 : min 0 (C - k) = 0 := by omega
    have h3 : 0 - (C - k) = 0 := by omega
    simp [runIncrs, h1, h2, h3]
    omega
  | succ n ih =>
    intro k C hC hk
    have hcap : readCap (some ⟨k, C⟩) = C := by
      simp only [readCap, jsOrDefault]
      rw [if_neg (by omega)]
    by_cases hkC : k < C
    · have htx : txIncr (some ⟨k, C⟩) = (some ⟨k + 1, C⟩, .ok (k + 1) C) := by
        unfold txIncr
        rw [hcap]
        rw [if_neg (by simp only [readCount]; omega)]
        rfl
      rw [runIncrs_succ, htx]
      dsimp only
      rw [ih (k + 1) C hC (by omega)]
      dsimp only
      rw [show min (n + 1) (C - k) = min n (C - (k + 1)) + 1 by omega,
        List.range'_succ, List.map_cons, List.cons_append]
      rw [show (n + 1) - (C - k) = n - (C - (k + 1)) by omega,
        show min (k + 1 + n) C = min (k + (n + 1)) C by omega,
        show k + 1 + 1 = k + 2 by omega]
    · have hk' : k = C := by omega
      subst hk'
      have htx : txIncr (some ⟨k, k⟩) = (some ⟨k, k⟩, .quotaExceeded k k) := by
        unfold txIncr
        rw [hcap]
        rw [if_pos (by simp only [readCount]; omega)]
        rfl
      rw [runIncrs_succ, htx]
      dsimp only
      rw [ih k k hC (by omega)]
      dsimp only
      rw [show min n (k - k) = 0 by omega, show min (n + 1) (k - k) = 0 by omega,
        show n - (k - k) = n by omega, show (n + 1) - (k - k) = n + 1 by omega,
        show min (k + n) k = k by omega, show min (k + (n + 1)) k = k by omega]
      simp [List.replicate_succ]

/-- C1: serializing `N` concurrent increments against a fresh counter
with cap `C ≥ 1` (Firestore's transaction makes the interleavings
equivalent to some serial order of the atomic read-modify-write) admits
exactly `min N C` increments whose returned counts are the strictly
increasing, non-repeating sequence `1, …, min N C`, rejects exactly
`N - C` with `QuotaExceeded{count: C, cap: C}`, and never admits a count
past the cap. -/
theorem quota_atomicity (N C : Nat) (hC : 1 ≤ C) :
    okCounts (runIncrs N (some ⟨0, C⟩)).2 = List.range' 1 (min N C) ∧
    (okCounts (runIncrs N (some ⟨0, C⟩)).2).length = min N C ∧
    List.Chain' (· < ·) (okCounts (runIncrs N (some ⟨0, C⟩)).2) ∧
    (∀ c ∈ okCounts (runIncrs N (some ⟨0, C⟩)).2, c ≤ C) ∧
    ((runIncrs N (some ⟨0, C⟩)).2.filter isExceeded).length = N - C ∧
    (∀ o ∈ (runIncrs N (some ⟨0, C⟩)).2, isExceeded o = true → o = .quotaExceeded C C) := by
  have hspec := runIncrs_spec N 0 C hC (by omega)
  rw [show (0 : Nat) + N = N by omega, show C - 0 = C by omega] at hspec
  rw [hspec]
  have hok : okCounts ((List.range' 1 (min N C)).map (fun c => .ok c C) ++
      List.replicate (N - C) (.quotaExceeded C C)) = List.range' 1 (min N C) := by
    unfold okCounts
    rw [List.filterMap_append, List.filterMap_map]
    have h1 : List.filterMap
        ((fun o => match o with | .ok c _ => some c | _ => none) ∘ (fun c => IncrOutcome.ok c C))
        (List.range' 1 (min N C)) = List.range' 1 (min N C) := by
      have : ∀ l : List Nat, List.filterMap
          ((fun o => match o with | .ok c _ => some c | _ => none) ∘
            (fun c => IncrOutcome.ok c C)) l = l := by
        intro l
        induction l with
        | nil => rfl
        | cons x xs ih => simp only [List.filterMap_cons, Function.comp_apply]; rw [ih]
      exact this _
    have h2 : ∀ m : Nat, List.filterMap
        (fun o => match o with | IncrOutcome.ok c _ => some c | _ => none)
        (List.replicate m (IncrOutcome.quotaExceeded C C)) = [] := by
      intro m
      induction m with
      | zero => rfl
      | succ j ih => simp only [List.replicate_succ, List.filterMap_cons]; rw [ih]
    rw [h1, h2, List.append_nil]
  refine ⟨hok, ?_, ?_, ?_, ?_, ?_⟩
  · rw [hok, List.length_range']
  · rw [hok]
    have : (List.range' 1 (min N C)).Pairwise (· < ·) := by
      have := List.pairwise_lt_range' 1 (min N C) 1 (by omega)
      simpa using this
    exact this.chain'
  · rw [hok]
    intro c hc
    have := List.mem_range'_1.mp hc
    omega
  · rw [List.filter_append]
    have h1 : ((List.range' 1 (min N C)).map (fun c => IncrOutcome.ok c C)).filter isExceeded
        = [] := by
      rw [List.filter_eq_nil_iff]
      intro o ho
      rcases List.mem_map.mp ho with ⟨c, _, rfl⟩
      simp [isExceeded]
    have h2 : (List.replicate (N - C) (IncrOutcome.quotaExceeded C C)).filter isExceeded =
        List.replicate (N - C) (IncrOutcome.quotaExceeded C C) := by
      rw [List.filter_eq_self]
      intro o ho
      rw [List.eq_of_mem_replicate ho]
      rfl
    rw [h1, h2, List.nil_append, List.length_replicate]
  · intro o ho hex
    rcases List.mem_append.mp ho with h | h
    · rcases List.mem_map.mp h with ⟨c, _, rfl⟩
      exact absurd hex (by simp [isExceeded])
    · exact List.eq_of_mem_replicate h

/-- C1, witnessed at the spec's own test vector: 50 increments against a
fresh counter with cap 10 admit counts `1..10` and reject 40. -/
theorem quota_atomicity_witness :
    okCounts (runIncrs 50 (some ⟨0, 10⟩)).2 = List.range' 1 (min 50 10) ∧
    (okCounts (runIncrs 50 (some ⟨0, 10⟩)).2).length = min 50 10 ∧
    List.Chain' (· < ·) (okCounts (runIncrs 50 (some ⟨0, 10⟩)).2) ∧
    (∀ c ∈ okCounts (runIncrs 50 (some ⟨0, 10⟩)).2, c ≤ 10) ∧
    ((runIncrs 50 (some ⟨0, 10⟩)).2.filter isExceeded).length = 50 - 10 ∧
    (∀ o ∈ (runIncrs 50 (some ⟨0, 10⟩)).2, isExceeded o = true →
      o = .quotaExceeded 10 10) :=
  quota_atomicity 50 10 (by decide)

lemma txIncr_fst_cap (doc : Option Counter) : readCap (txIncr doc).1 = readCap doc := by
  unfold txIncr
  dsimp only
  by_cases h : readCount doc + 1 > readCap doc
  · rw [if_pos h]
  · rw [if_neg h]
    show readCap (some ⟨readCount doc + 1, readCap doc⟩) = readCap doc
    obtain ⟨x, hx, hx1⟩ : ∃ x, readCap doc = x ∧ 1 ≤ x :=
      ⟨readCap doc, rfl, readCap_pos doc⟩
    rw [hx]
    simp only [readCap, jsOrDefault]
    rw [if_neg (by omega)]

lemma iterIncr_cap (n : Nat) : ∀ doc, readCap (iterIncr n doc) = readCap doc := by
  induction n with
  | zero => intro doc; rfl
  | succ m ih =>
    intro doc
    show readCap (runIncrs (m + 1) doc).1 = readCap doc
    rw [runIncrs_succ]
    dsimp only
    rw [show (runIncrs m (txIncr doc).1).1 = iterIncr m (txIncr doc).1 from rfl,
      ih (txIncr doc).1, txIncr_fst_cap]

lemma txIncr_keeps_cap (k c : Nat) (hc : 1 ≤ c) :
    ∃ k1, (txIncr (some ⟨k, c⟩)).1 = some ⟨k1, c⟩ := by
  have hcap : readCap (some ⟨k, c⟩) = c := by
    simp only [readCap, jsOrDefault]
    rw [if_neg (by omega)]
  unfold txIncr
  dsimp only
  rw [hcap]
  by_cases h : readCount (some ⟨k, c⟩) + 1 > c
  · rw [if_pos h]
    exact ⟨k, rfl⟩
  · rw [if_neg h]
    exact ⟨readCount (some ⟨k, c⟩) + 1, rfl⟩

lemma iterIncr_keeps_cap (n : Nat) : ∀ k c, 1 ≤ c →
    ∃ k1, iterIncr n (some ⟨k, c⟩) = some ⟨k1, c⟩ := by
  induction n with
  | zero => intro k c _; exact ⟨k, rfl⟩
  | succ m ih =>
    intro k c hc
    show ∃ k1, (runIncrs (m + 1) (some ⟨k, c⟩)).1 = some ⟨k1, c⟩
    rw [runIncrs_succ]
    dsimp only
    obtain ⟨k0, hk0⟩ := txIncr_keeps_cap k c hc
    rw [show (runIncrs m (txIncr (some ⟨k, c⟩)).1).1 =
      iterIncr m (txIncr (some ⟨k, c⟩)).1 from rfl, hk0]
    exact ih k0 c hc

/-- C10: a successful increment stores exactly the cap it read
(`DEFAULT_CAP = 10` when the document was absent) next to the new count,
so under any number of increments the effective cap is invariant, and an
existing counter document with a positive stored cap keeps that stored
cap through every sequence of increments. -/
theorem increment_cap_frame (doc : Option Counter) (n k c : Nat) (hc : 1 ≤ c) :
    ((txIncr doc).1 = doc ∨ (txIncr doc).1 = some ⟨readCount doc + 1, readCap doc⟩) ∧
    readCap (iterIncr n doc) = readCap doc ∧
    (∃ k1, iterIncr n (some ⟨k, c⟩) = some ⟨k1, c⟩) := by
  refine ⟨?_, iterIncr_cap n doc, iterIncr_keeps_cap n k c hc⟩
  unfold txIncr
  dsimp only
  by_cases h : readCount doc + 1 > readCap doc
  · rw [if_pos h]
    exact Or.inl rfl
  · rw [if_neg h]
    exact Or.inr rfl

/-- C10, witnessed: two increments against a fresh counter leave the
effective cap at `DEFAULT_CAP`, and a stored cap of 5 survives them. -/
theorem increment_cap_frame_witness :
    ((txIncr none).1 = none ∨ (txIncr none).1 = some ⟨readCount none + 1, readCap none⟩) ∧
    readCap (iterIncr 2 none) = readCap none ∧
    (∃ k1, iterIncr 2 (some ⟨0, 5⟩) = some ⟨k1, 5⟩) :=
  increment_cap_frame none 2 0 5 (by decide)

end EcoForecast
